import Mathlib

/-!
Shallow embedding of the poof zmx session manager (src/index.ts).

JavaScript strings are modelled as Lean strings wherever only text
operations occur; where character-code arithmetic occurs
(String.fromCharCode in generateLetterDesignation) the JavaScript
string is modelled as a list of UTF-16 code units (natural numbers
below 2 ^ 16), which is exact.  Subprocess invocations are modelled by
passing their observable result (captured stdout, or a thrown error
with an exit status and message) as an explicit argument.
-/

/-- A parsed session record: the zmx edition only keeps the session name. -/
structure ZmxSession where
  name : String
  deriving DecidableEq, Repr

/-- Observable result of one execSync invocation of the external zmx
binary: captured stdout on success, or a thrown error carrying the
child exit status (absent when the spawn itself failed before the
child could exit) and the error message. -/
inductive ExecResult
  | success (stdout : String)
  | failure (status : Option Int) (message : String)
  deriving DecidableEq

/-- Test for a single character of the character class of the regex
used in the no-session validator, namely a-z case-insensitively
(ASCII letters). -/
def isAsciiAlpha (c : Char) : Bool :=
  (65 ≤ c.toNat && c.toNat ≤ 90) || (97 ≤ c.toNat && c.toNat ≤ 122)

/-- Embeds the toLowerCase calls of the source.  Char.toLower lowers
exactly the ASCII range, which covers every comparison the program
performs (letter designations and the keyword reset). -/
def jsToLower (s : String) : String :=
  ⟨s.data.map Char.toLower⟩

/-- Whitespace class of the regex escape backslash-s, restricted to its
ASCII members (space, tab, line feed, vertical tab, form feed,
carriage return); the non-ASCII space characters of the class never
occur in zmx listing output. -/
def isJsSpace (c : Char) : Bool :=
  c == ' ' || c == '\t' || c == '\n' || c == '\r' || c == '\x0b' || c == '\x0c'

/-- Embeds the JavaScript trim calls of the source: surrounding
whitespace (the same class as isJsSpace; the JS trim set also covers
line terminators, which isJsSpace includes) is removed from both
ends. -/
def jsTrim (s : String) : String :=
  ⟨((s.data.dropWhile isJsSpace).reverse.dropWhile isJsSpace).reverse⟩

/-- Embeds the JavaScript startsWith call of getZmxSessions. -/
def jsStartsWith (s pre : String) : Bool :=
  pre.data.isPrefixOf s.data

/-- Splits a character list at every occurrence of the separator,
keeping empty groups, exactly as the JavaScript split with a
single-character separator does (the empty input yields one empty
group). -/
def splitOnChar (sep : Char) : List Char → List (List Char)
  | [] => [[]]
  | c :: cs =>
    let r := splitOnChar sep cs
    if c == sep then [] :: r
    else
      match r with
      | [] => [[c]]
      | g :: gs => (c :: g) :: gs

/-- Embeds the split call of getZmxSessions: the captured text split at
every line feed. -/
def jsSplitLines (s : String) : List String :=
  (splitOnChar '\n' s.data).map fun cs => ⟨cs⟩

/-- The literal part of the regex that getZmxSessions matches against
each listing line. -/
def sessionKeyChars : List Char := "session_name=".data

/-- One anchored attempt of the regex at the current position: the
literal must be a prefix here and must be followed by at least one
non-whitespace character; the capture is the maximal (greedy) run of
non-whitespace characters after the literal. -/
def matchSessionKeyAt (cs : List Char) : Option (List Char) :=
  if sessionKeyChars.isPrefixOf cs then
    let tok := (cs.drop sessionKeyChars.length).takeWhile (fun c => !(isJsSpace c))
    if tok.isEmpty then none else some tok
  else none

/-- Leftmost-match search of the regex over a line, advancing one
position at a time after a failed anchored attempt, exactly as the
regex engine does. -/
def findSessionName : List Char → Option (List Char)
  | [] => none
  | c :: cs =>
    match matchSessionKeyAt (c :: cs) with
    | some tok => some tok
    | none => findSessionName cs

/-- Embeds the line.match call of getZmxSessions: the first capture of
the session-name regex, if the line matches. -/
def extractSessionName (line : String) : Option String :=
  (findSessionName line.data).map fun cs => ⟨cs⟩

/-- Embeds the per-line mapping of getZmxSessions: the captured token
when the regex matches, otherwise the trimmed raw line. -/
def parseLine (line : String) : ZmxSession :=
  ⟨(extractSessionName line).getD (jsTrim line)⟩

/-- Embeds getZmxSessions of src/index.ts: on captured output, the
sentinel prefix maps to the empty listing, otherwise each non-empty
line of the trimmed output becomes one record; a thrown error with
exit status 1 also maps to the empty listing, and any other thrown
error is rethrown. -/
def getZmxSessions : ExecResult → Except String (List ZmxSession)
  | .success stdout =>
    let trimmed := jsTrim stdout
    if jsStartsWith trimmed "no sessions found" then .ok []
    else
      .ok (((jsSplitLines trimmed).filter (fun l => decide (0 < l.length))).map parseLine)
  | .failure status message =>
    if status = some 1 then .ok [] else .error message

/-- Embeds JavaScript String.fromCharCode on one argument: the value is
converted to an unsigned 16-bit integer (ToUint16) and becomes one
UTF-16 code unit of the result. -/
def fromCharCode (n : Nat) : Nat := n % 65536

/-- Embeds generateLetterDesignation of src/index.ts, producing the
UTF-16 code units of the returned label. -/
def generateLetterDesignation (index : Nat) : List Nat :=
  if index < 26 then [fromCharCode (97 + index)]
  else [fromCharCode (97 + index / 26 - 1), fromCharCode (97 + index % 26)]

/-- Renders a designation as a Lean string (used only to key the letter
map of the interactive mode; every key actually generated is a short
ASCII string, where this rendering is exact). -/
def unitsToString (units : List Nat) : String :=
  ⟨units.map Char.ofNat⟩

/-- Embeds the letter-map construction of runInteractiveMode: the rank
of each session in listing order is designated and inserted, in
listing order. -/
def buildLetterMap (sessions : List ZmxSession) : List (List Nat × String) :=
  sessions.enum.map fun p => (generateLetterDesignation p.1, p.2.name)

/-- The resolved action of one interactive cycle (the Cancel case is
handled before resolution, see runInteractiveMode). -/
inductive ResolvedAction
  | attach (name : String)
  | create (name : String)
  | killAll (sessions : List ZmxSession)
  deriving DecidableEq

/-- Embeds the validate callback of the no-session prompt: the raw
current value is rejected exactly when it is one single ASCII letter. -/
def validateNoSessions (value : String) : Option String :=
  match value.data with
  | [c] =>
    if isAsciiAlpha c then
      some "Session name must be empty (for UUID) or 2+ characters"
    else none
  | _ => none

/-- Embeds the no-session resolution of runInteractiveMode: the trimmed
input if non-empty, otherwise a fresh random identifier (passed in as
the uuid argument), always creating. -/
def resolveNoSessions (input : String) (uuid : String) : ResolvedAction :=
  let t := jsTrim input
  if t = "" then .create uuid else .create t

/-- Embeds the validate callback of the has-sessions prompt: empty raw
input is allowed; otherwise the trimmed lowercased value is rejected
exactly when it has length one and is not a key of the letter map. -/
def validateHasSessions (letterMap : List (String × String)) (value : String) : Option String :=
  if value = "" then none
  else
    let val := jsToLower (jsTrim value)
    if val.length = 1 ∧ (List.lookup val letterMap).isNone then
      some ("Invalid session letter. Choose from: "
        ++ String.intercalate ", " (letterMap.map Prod.fst))
    else none

/-- Embeds the resolution of runInteractiveMode when sessions exist:
reset (case-insensitively) kills all, empty input creates under a
fresh identifier, a single character attaches through the letter map
(none models the silent fall-through of the source when the letter is
absent, which validation makes unreachable), anything longer creates
under the trimmed original-case input. -/
def resolveHasSessions (letterMap : List (String × String)) (sessions : List ZmxSession)
    (input : String) (uuid : String) : Option ResolvedAction :=
  let value := jsTrim input
  if jsToLower value = "reset" then some (.killAll sessions)
  else if value = "" then some (.create uuid)
  else if value.length = 1 then
    match List.lookup (jsToLower value) letterMap with
    | some name => some (.attach name)
    | none => none
  else some (.create value)

/-- Embeds killAllSessions of src/index.ts against an oracle giving the
result of each zmx kill invocation: the forEach with execSync performs
one kill per record in listing order until one throws, and the first
thrown error propagates.  The result records the names actually
invoked, in order, and the propagated error if any. -/
def killAllSessions (kill : String → Except String Unit) :
    List ZmxSession → List String × Option String
  | [] => ([], none)
  | s :: rest =>
    match kill s.name with
    | .ok _ =>
      let r := killAllSessions kill rest
      (s.name :: r.1, r.2)
    | .error msg => ([s.name], some msg)

/-- Termination of the calling process (the only way attach and create
hand control back to the operating system). -/
inductive ProcessTermination
  | exitWith (code : Int)
  deriving DecidableEq

/-- Embeds the exit handler expression of the source (the child code or
zero when the code is falsy): zero for a zero or absent child status,
the child status otherwise. -/
def jsOrZero (child : Option Int) : Int :=
  match child with
  | some c => if c = 0 then 0 else c
  | none => 0

/-- Embeds attachToSession of src/index.ts: the spawned zmx argument
vector together with the termination of the calling process once the
child reports the given exit status.  The operation never returns
normally: its codomain only terminates the process. -/
def attachToSession (sessionName : String) (child : Option Int) :
    List String × ProcessTermination :=
  (["attach", sessionName], .exitWith (jsOrZero child))

/-- Embeds createSession of src/index.ts: zmx attach creates a missing
session, so the same attach subcommand is spawned, with the same
exit-propagation contract as attachToSession. -/
def createSession (sessionName : String) (child : Option Int) :
    List String × ProcessTermination :=
  (["attach", sessionName], .exitWith (jsOrZero child))

/-- Outcome of the non-interactive create command. -/
inductive DirectOutcome
  | errorExit (code : Int)
  | spawned (args : List String)
  deriving DecidableEq

/-- Embeds createSessionDirect of src/index.ts: the live listing is
consulted first, an existing session of the same name prints an error
and exits with status 1 before any subprocess is spawned, and only a
fresh name spawns the attach (create-or-attach) subcommand. -/
def createSessionDirect (sessions : List ZmxSession) (sessionName : String) : DirectOutcome :=
  if sessions.any (fun s => s.name == sessionName) then .errorExit 1
  else .spawned ["attach", sessionName]

/-- Result of the interactive prompt: a distinguished cancellation
signal, or an accepted line of text. -/
inductive PromptInput
  | cancelled
  | line (value : String)

/-- Observable outcome of one interactive cycle. -/
inductive InteractiveOutcome
  /-- the cancel message was printed and the process exited with status
  zero; no attach, create or kill subprocess was invoked. -/
  | cancelledExit0
  /-- createSession was invoked with the given name. -/
  | createdSession (name : String)
  /-- attachToSession was invoked with the given name. -/
  | attachedSession (name : String)
  /-- killAllSessions was invoked with the given listing, then the
  process exited with status zero. -/
  | killedAll (sessions : List ZmxSession)
  /-- the silent fall-through of the source when a selected letter is
  absent from the map (unreachable for validated input). -/
  | noAction
  deriving DecidableEq

/-- Embeds runInteractiveMode of src/index.ts, given the live listing,
the prompt result and the fresh random identifier: an empty listing
branches to the no-session prompt, a non-empty listing builds the
letter map and resolves; in both branches a cancellation signal is
checked first and exits with status zero before any action. -/
def runInteractiveMode (sessions : List ZmxSession) (input : PromptInput)
    (uuid : String) : InteractiveOutcome :=
  if sessions.length = 0 then
    match input with
    | .cancelled => .cancelledExit0
    | .line v =>
      match resolveNoSessions v uuid with
      | .create n => .createdSession n
      | .attach n => .attachedSession n
      | .killAll ss => .killedAll ss
  else
    let letterMap := (buildLetterMap sessions).map fun p => (unitsToString p.1, p.2)
    match input with
    | .cancelled => .cancelledExit0
    | .line v =>
      match resolveHasSessions letterMap sessions v uuid with
      | some (.killAll ss) => .killedAll ss
      | some (.create n) => .createdSession n
      | some (.attach n) => .attachedSession n
      | none => .noAction

/-- Formalisation of the no-sessions signal named by the specification:
the sentinel stdout prefix, or the sentinel exit status 1. -/
def noSessionsSignal : ExecResult → Prop
  | .success stdout => jsStartsWith (jsTrim stdout) "no sessions found" = true
  | .failure status _ => status = some 1

/-- A successful listing invocation whose captured output contains no
non-empty line after trimming. -/
def parsesToNoRecords : ExecResult → Prop
  | .success stdout =>
    (jsSplitLines (jsTrim stdout)).filter (fun l => decide (0 < l.length)) = []
  | .failure _ _ => False

/-- Kill oracle used as the concrete witness input of the killAll
claim: every session dies except the one named bad. -/
def killOracleWitness (n : String) : Except String Unit :=
  if n = "bad" then .error "kill failed" else .ok ()

/-! Theorems about the embedding, one per claim, with witnesses. -/

/-- Claim C3 (corrected), counterexample: at rank 1701440 the first
UTF-16 code unit emitted by generateLetterDesignation is 0 (the
ToUint16 truncation of String.fromCharCode wraps), while the claimed
formula, the code of the letter a plus the rank divided by 26 minus
one, is 65536; so the claimed first letter is wrong at this rank. -/
theorem c3_counterexample :
    generateLetterDesignation 1701440 = [0, 97] ∧
      97 + 1701440 / 26 - 1 = 65536 ∧ (0 : Nat) ≠ 65536 := by
  refine ⟨?_, by norm_num, by norm_num⟩
  have h : ¬ (1701440 < 26) := by norm_num
  simp [generateLetterDesignation, fromCharCode, h]

/-- Claim C3 (amended): for every rank r, generateLetterDesignation is
pure, total and deterministic and returns: for r below 26, the single
code unit of the letter at offset r from a; for r at least 26, two
code units, the first being the code of a plus floor(r/26) minus one
reduced modulo 2^16 (the ToUint16 truncation of String.fromCharCode;
the reduction is the identity for every r below 1701440), the second
the code of a plus r modulo 26; in particular for r between 26 and 51
the label is a followed by the letter at offset r modulo 26. -/
theorem c3_amended (r : Nat) :
    (r < 26 → generateLetterDesignation r = [97 + r]) ∧
    (26 ≤ r → generateLetterDesignation r = [(97 + r / 26 - 1) % 65536, 97 + r % 26]) ∧
    (26 ≤ r → r ≤ 51 → generateLetterDesignation r = [97, 97 + r % 26]) := by
  refine ⟨?_, ?_, ?_⟩
  · intro h
    simp [generateLetterDesignation, fromCharCode, h]
    omega
  · intro h
    have h' : ¬ (r < 26) := by omega
    simp [generateLetterDesignation, fromCharCode, h']
    omega
  · intro h h'
    have h26 : ¬ (r < 26) := by omega
    have hd : r / 26 = 1 := by omega
    simp [generateLetterDesignation, fromCharCode, h26, hd]
    omega

/-- Claim C3 witness: the amended theorem applied at the concrete ranks
3 and 30. -/
theorem c3_witness :
    (3 < 26 ∧ generateLetterDesignation 3 = [97 + 3]) ∧
      (26 ≤ 30 ∧ generateLetterDesignation 30 = [(97 + 30 / 26 - 1) % 65536, 97 + 30 % 26]) :=
  ⟨⟨by norm_num, (c3_amended 3).1 (by norm_num)⟩,
    ⟨by norm_num, (c3_amended 30).2.1 (by norm_num)⟩⟩

/-- The designation function is injective on the ranks of a listing of
at most 676 sessions: single letters are pairwise distinct, a single
letter never equals a two-letter label, and within two-letter labels
the quotient and remainder by 26 determine the rank. -/
theorem designation_inj (i j : Nat) (hi : i < 676) (hj : j < 676)
    (h : generateLetterDesignation i = generateLetterDesignation j) : i = j := by
  by_cases h1 : i < 26 <;> by_cases h2 : j < 26 <;>
    simp [generateLetterDesignation, fromCharCode, h1, h2] at h <;> omega

/-- Claim C4 (confirmed): for every listing of at most 676 sessions,
the letter map has exactly one entry per session (its length equals
the listing length), the entry at every index pairs the designation
of that rank with the name of the session at the same index (so the
insertion order equals the listing order), and the key list has no
duplicate (the designation function is injective on the occurring
ranks); the 27-session boundary case is exercised by the witness. -/
theorem c4_letterMap (sessions : List ZmxSession) (h : sessions.length ≤ 676) :
    (buildLetterMap sessions).length = sessions.length ∧
    (∀ i : Nat, (buildLetterMap sessions)[i]? =
      (sessions[i]?).map fun s => (generateLetterDesignation i, s.name)) ∧
    ((buildLetterMap sessions).map Prod.fst).Nodup := by
  refine ⟨by simp [buildLetterMap], ?_, ?_⟩
  · intro i
    simp only [buildLetterMap, List.getElem?_map, List.getElem?_enum]
    cases sessions[i]? <;> simp
  · have hkeys : (buildLetterMap sessions).map Prod.fst
        = (List.range sessions.length).map generateLetterDesignation := by
      rw [buildLetterMap, List.map_map, ← List.enum_map_fst sessions, List.map_map]
      rfl
    rw [hkeys]
    apply (List.nodup_range sessions.length).map_on
    intro x hx y hy hxy
    exact designation_inj x y (lt_of_lt_of_le (List.mem_range.mp hx) h)
      (lt_of_lt_of_le (List.mem_range.mp hy) h) hxy

/-- Claim C4 witness: the theorem applied to a concrete listing of
exactly 27 sessions, together with the boundary facts that rank 26 is
designated aa while rank 0 is designated a. -/
theorem c4_witness :
    ((List.replicate 27 (ZmxSession.mk "s")).length ≤ 676 ∧
      (buildLetterMap (List.replicate 27 (ZmxSession.mk "s"))).length
          = (List.replicate 27 (ZmxSession.mk "s")).length ∧
      (∀ i : Nat, (buildLetterMap (List.replicate 27 (ZmxSession.mk "s")))[i]? =
        ((List.replicate 27 (ZmxSession.mk "s"))[i]?).map
          fun s => (generateLetterDesignation i, s.name)) ∧
      ((buildLetterMap (List.replicate 27 (ZmxSession.mk "s"))).map Prod.fst).Nodup) ∧
    generateLetterDesignation 26 = [97, 97] ∧ generateLetterDesignation 0 = [97] :=
  ⟨⟨by decide, (c4_letterMap _ (by decide)).1, (c4_letterMap _ (by decide)).2.1,
    (c4_letterMap _ (by decide)).2.2⟩, by decide, by decide⟩

/-- Claim C5 (corrected), counterexample: a successful list invocation
whose captured output is empty yields the empty listing although the
external command signalled neither the sentinel text nor the sentinel
exit status; so the empty result is not returned exactly when the
recognized no-sessions state is signalled. -/
theorem c5_counterexample :
    getZmxSessions (.success "") = .ok [] ∧ ¬ noSessionsSignal (.success "") := by
  refine ⟨rfl, ?_⟩
  unfold noSessionsSignal
  decide

/-- Claim C5 (amended): getZmxSessions returns the empty listing, not
an error, exactly when the list command signals the recognized
no-sessions state (the sentinel stdout prefix or the sentinel exit
status 1) or when the captured output contains no non-empty line
after trimming; and it returns an error exactly on a subprocess
failure whose exit status is not the sentinel 1, carrying the
underlying message. -/
theorem c5_amended (r : ExecResult) :
    (getZmxSessions r = .ok [] ↔ noSessionsSignal r ∨ parsesToNoRecords r) ∧
    (∀ status msg, r = .failure status msg → status ≠ some 1 →
      getZmxSessions r = .error msg) ∧
    (∀ msg, getZmxSessions r = .error msg →
      ∃ status, r = .failure status msg ∧ status ≠ some 1) := by
  cases r with
  | success stdout =>
    refine ⟨?_, ?_, ?_⟩
    · by_cases hs : jsStartsWith (jsTrim stdout) "no sessions found"
      · simp [getZmxSessions, hs, noSessionsSignal]
      · simp [getZmxSessions, hs, noSessionsSignal, parsesToNoRecords]
    · intro status msg hcontra
      exact absurd hcontra (by simp)
    · intro msg h
      by_cases hs : jsStartsWith (jsTrim stdout) "no sessions found" <;>
        simp [getZmxSessions, hs] at h
  | failure status msg =>
    by_cases h1 : status = some 1
    · refine ⟨?_, ?_, ?_⟩
      · simp [getZmxSessions, h1, noSessionsSignal]
      · intro status' msg' he hne
        injection he with h2 h3
        subst h2
        exact absurd h1 hne
      · intro m hm
        simp [getZmxSessions, h1] at hm
    · refine ⟨?_, ?_, ?_⟩
      · simp [getZmxSessions, h1, noSessionsSignal, parsesToNoRecords]
      · intro status' msg' he hne
        injection he with h2 h3
        subst h2
        subst h3
        simp [getZmxSessions, h1]
      · intro m hm
        simp [getZmxSessions, h1] at hm
        exact ⟨status, by rw [hm], h1⟩

/-- Claim C5 witness: the amended theorem applied to a concrete failed
invocation with exit status 2, whose message propagates. -/
theorem c5_witness :
    getZmxSessions (.failure (some 2) "spawn failed") = .error "spawn failed" :=
  (c5_amended (.failure (some 2) "spawn failed")).2.1 (some 2) "spawn failed" rfl (by decide)

/-- Claim C6 (confirmed): for every captured non-sentinel listing text,
parsing is the pure total map that yields exactly one record per
non-empty line of the trimmed output, in line order; a line whose
session-name regex matches is named by the captured token, and a line
without a match degrades to the trimmed raw line, never failing;
being a pure function of the captured text, re-parsing the same text
trivially yields the identical ordered record sequence. -/
theorem c6_parse (stdout : String)
    (hs : jsStartsWith (jsTrim stdout) "no sessions found" = false) :
    getZmxSessions (.success stdout)
        = .ok (((jsSplitLines (jsTrim stdout)).filter
            (fun l => decide (0 < l.length))).map parseLine) ∧
    (∀ line tok, extractSessionName line = some tok → parseLine line = ⟨tok⟩) ∧
    (∀ line, extractSessionName line = none → parseLine line = ⟨jsTrim line⟩) := by
  refine ⟨by simp [getZmxSessions, hs], ?_, ?_⟩
  · intro line tok h
    simp [parseLine, h]
  · intro line h
    simp [parseLine, h]

/-- Claim C6 witness: the theorem applied at a concrete captured text,
together with the evaluated behaviour of the two per-line cases (a
line carrying a session-name field and a degraded raw line). -/
theorem c6_witness :
    jsStartsWith (jsTrim "session_name=alpha pid=1\n raw line ") "no sessions found" = false ∧
    extractSessionName "session_name=alpha pid=1" = some "alpha" ∧
    parseLine "session_name=alpha pid=1" = ⟨"alpha"⟩ ∧
    extractSessionName " raw line " = none ∧
    parseLine " raw line " = ⟨"raw line"⟩ :=
  ⟨by decide, by decide,
    (c6_parse "session_name=alpha pid=1\n raw line " (by decide)).2.1
      "session_name=alpha pid=1" "alpha" (by decide),
    by decide,
    (c6_parse "session_name=alpha pid=1\n raw line " (by decide)).2.2
      " raw line " (by decide)⟩

/-- Claim C1 (corrected), counterexample: the raw input consisting of
the letter a surrounded by spaces trims to exactly one alphabetic
character, yet the validator accepts it (it tests the raw value, not
the trimmed one) and the resolver creates a session named a instead
of rejecting the input. -/
theorem c1_counterexample :
    (jsTrim " a ").data = ['a'] ∧ isAsciiAlpha 'a' = true ∧
    validateNoSessions " a " = none ∧
    resolveNoSessions " a " "fresh-uuid" = .create "a" := by
  decide

/-- Claim C1 (amended): in state NoSessions, the validator rejects a
raw input line exactly when the raw input (before trimming) is one
single alphabetic character, re-requesting input; an input whose
trimmed form is empty resolves to Create of the freshly generated
identifier, and an input whose trimmed form has length at least two
resolves to Create of the trimmed input. -/
theorem c1_amended (input uuid : String) :
    (validateNoSessions input = none ↔ ∀ c, input.data = [c] → isAsciiAlpha c = false) ∧
    (jsTrim input = "" → resolveNoSessions input uuid = .create uuid) ∧
    (2 ≤ (jsTrim input).length → resolveNoSessions input uuid = .create (jsTrim input)) := by
  refine ⟨?_, ?_, ?_⟩
  · constructor
    · intro h c hc
      by_cases ha : isAsciiAlpha c
      · rw [validateNoSessions, hc] at h
        simp [ha] at h
      · simpa using ha
    · intro h
      rcases hd : input.data with _ | ⟨c, _ | ⟨d, rest⟩⟩
      · simp [validateNoSessions, hd]
      · simp [validateNoSessions, hd, h c hd]
      · simp [validateNoSessions, hd]
  · intro h
    simp [resolveNoSessions, h]
  · intro h
    have hne : jsTrim input ≠ "" := by
      intro he
      rw [he] at h
      exact absurd h (by decide)
    simp [resolveNoSessions, hne]

/-- Claim C1 witness: the amended theorem applied at the concrete
accepted input my-proj, which resolves to creating my-proj. -/
theorem c1_witness :
    validateNoSessions "my-proj" = none ∧
    2 ≤ (jsTrim "my-proj").length ∧
    resolveNoSessions "my-proj" "u" = .create (jsTrim "my-proj") :=
  ⟨by decide, by decide, (c1_amended "my-proj" "u").2.2 (by decide)⟩

/-- Lowercasing is a character-wise map and so preserves length. -/
theorem jsToLower_length (s : String) : (jsToLower s).length = s.length :=
  List.length_map s.data Char.toLower

/-- Claim C2 (confirmed): in state HasSessions, for every raw input
accepted by validation: a trimmed input lowercasing to the keyword
reset resolves to KillAll of the current full session list (for any
letter map, in particular one of a listing containing a session named
reset); an empty trimmed input resolves to Create of the fresh
identifier; a trimmed input of length one resolves to Attach of the
session its lowercased letter maps to in the letter map (the lookup
case-folds, the key is guaranteed present by validation); and any
longer non-reset trimmed input resolves to Create of the
original-case trimmed input. -/
theorem c2_resolver (letterMap : List (String × String)) (sessions : List ZmxSession)
    (input uuid : String) (hacc : validateHasSessions letterMap input = none) :
    (jsToLower (jsTrim input) = "reset" →
      resolveHasSessions letterMap sessions input uuid = some (.killAll sessions)) ∧
    (jsTrim input = "" →
      resolveHasSessions letterMap sessions input uuid = some (.create uuid)) ∧
    ((jsTrim input).length = 1 →
      ∃ name, List.lookup (jsToLower (jsTrim input)) letterMap = some name ∧
        resolveHasSessions letterMap sessions input uuid = some (.attach name)) ∧
    (jsToLower (jsTrim input) ≠ "reset" → 2 ≤ (jsTrim input).length →
      resolveHasSessions letterMap sessions input uuid = some (.create (jsTrim input))) := by
  refine ⟨?_, ?_, ?_, ?_⟩
  · intro h
    simp [resolveHasSessions, h]
  · intro h
    simp [resolveHasSessions, h, (by decide : jsToLower "" ≠ "reset")]
  · intro h1
    have hlen : (jsToLower (jsTrim input)).length = 1 := by
      rw [jsToLower_length]
      exact h1
    have hres : jsToLower (jsTrim input) ≠ "reset" := by
      intro he
      rw [he] at hlen
      exact absurd hlen (by decide)
    have hne : jsTrim input ≠ "" := by
      intro he
      rw [he] at h1
      exact absurd h1 (by decide)
    have hinput : input ≠ "" := by
      intro he
      rw [he] at h1
      exact absurd h1 (by decide)
    rcases hcase : List.lookup (jsToLower (jsTrim input)) letterMap with _ | name
    · exfalso
      simp [validateHasSessions, hinput, hlen, hcase] at hacc
    · refine ⟨name, rfl, ?_⟩
      simp [resolveHasSessions, hres, hne, h1, hcase]
  · intro hres hlen
    have hne : jsTrim input ≠ "" := by
      intro he
      rw [he] at hlen
      exact absurd hlen (by decide)
    have hnot1 : ¬ ((jsTrim input).length = 1) := by omega
    simp [resolveHasSessions, hres, hne, hnot1]

/-- Claim C2 witness: the theorem applied to the concrete letter map of
the listing alpha, beta with accepted input a, which attaches to
alpha. -/
theorem c2_witness :
    validateHasSessions [("a", "alpha"), ("b", "beta")] "a" = none ∧
    (jsTrim "a").length = 1 ∧
    (∃ name, List.lookup (jsToLower (jsTrim "a")) [("a", "alpha"), ("b", "beta")]
        = some name ∧
      resolveHasSessions [("a", "alpha"), ("b", "beta")]
        [ZmxSession.mk "alpha", ZmxSession.mk "beta"] "a" "u" = some (.attach name)) :=
  ⟨by decide, by decide,
    (c2_resolver [("a", "alpha"), ("b", "beta")]
      [ZmxSession.mk "alpha", ZmxSession.mk "beta"] "a" "u" (by decide)).2.2.1 (by decide)⟩

/-- Claim C7 (confirmed): killAllSessions invokes the external kill
subcommand sequentially, once per record name; when every invocation
succeeds, exactly one kill is issued per record, in listing order,
with no error; and when any record of the list has a failing kill
invocation, the operation propagates an error to the caller. -/
theorem c7_killAll (kill : String → Except String Unit) (sessions : List ZmxSession) :
    ((∀ s ∈ sessions, kill s.name = .ok ()) →
      killAllSessions kill sessions = (sessions.map (fun s => s.name), none)) ∧
    ((∃ s ∈ sessions, kill s.name ≠ .ok ()) →
      ((killAllSessions kill sessions).2).isSome = true) := by
  induction sessions with
  | nil =>
    refine ⟨fun _ => rfl, ?_⟩
    rintro ⟨s, hs, _⟩
    exact absurd hs (List.not_mem_nil s)
  | cons s rest ih =>
    refine ⟨?_, ?_⟩
    · intro h
      have hs : kill s.name = .ok () := h s (List.mem_cons_self s rest)
      have hrest := ih.1 fun x hx => h x (List.mem_cons_of_mem s hx)
      simp [killAllSessions, hs, hrest]
    · rintro ⟨x, hx, hxe⟩
      rcases List.mem_cons.mp hx with rfl | hx'
      · cases hke : kill x.name with
        | error msg => simp [killAllSessions, hke]
        | ok u =>
          cases u
          exact absurd hke hxe
      · cases hke : kill s.name with
        | error msg => simp [killAllSessions, hke]
        | ok u =>
          cases u
          have hr := ih.2 ⟨x, hx', hxe⟩
          simpa [killAllSessions, hke] using hr

/-- Claim C7 witness: the theorem applied to a concrete kill oracle and
two concrete listings, one where both kills succeed in listing order
and one where the second kill fails and the error propagates. -/
theorem c7_witness :
    ((∀ s ∈ [ZmxSession.mk "alpha", ZmxSession.mk "beta"],
        killOracleWitness s.name = .ok ()) ∧
      killAllSessions killOracleWitness [ZmxSession.mk "alpha", ZmxSession.mk "beta"]
        = (["alpha", "beta"], none)) ∧
    ((∃ s ∈ [ZmxSession.mk "alpha", ZmxSession.mk "bad"],
        killOracleWitness s.name ≠ .ok ()) ∧
      ((killAllSessions killOracleWitness
          [ZmxSession.mk "alpha", ZmxSession.mk "bad"]).2).isSome = true) := by
  have hall : ∀ s ∈ [ZmxSession.mk "alpha", ZmxSession.mk "beta"],
      killOracleWitness s.name = .ok () := by
    intro s hs
    rcases List.mem_cons.mp hs with rfl | hs'
    · rfl
    · rcases List.mem_cons.mp hs' with rfl | hs''
      · rfl
      · exact absurd hs'' (List.not_mem_nil s)
  have hbad : killOracleWitness (ZmxSession.mk "bad").name ≠ .ok () := fun h =>
    Except.noConfusion h
  have hex : ∃ s ∈ [ZmxSession.mk "alpha", ZmxSession.mk "bad"],
      killOracleWitness s.name ≠ .ok () :=
    ⟨ZmxSession.mk "bad", by simp, hbad⟩
  exact ⟨⟨hall, (c7_killAll killOracleWitness _).1 hall⟩,
    ⟨hex, (c7_killAll killOracleWitness _).2 hex⟩⟩

/-- Claim C8 (confirmed): in both resolver states (empty and non-empty
listing), the distinguished cancellation signal from the prompt
short-circuits the interactive cycle to the cancelled outcome, which
exits the process with status zero and invokes no attach, create or
kill subprocess. -/
theorem c8_cancel (sessions : List ZmxSession) (uuid : String) :
    runInteractiveMode sessions .cancelled uuid = .cancelledExit0 := by
  by_cases h : sessions.length = 0 <;> simp [runInteractiveMode, h]

/-- Claim C9 (confirmed): attachToSession and createSession spawn the
zmx attach subcommand for the given session name and, once the child
reports, terminate the calling process with the exit status the child
reported, or with zero when the child reported none (the code-or-zero
expression of the source agrees with that contract in every case);
their codomain only terminates the process, so control never returns
normally to the caller. -/
theorem c9_handoff (sessionName : String) (child : Option Int) :
    attachToSession sessionName child
        = (["attach", sessionName], .exitWith (child.getD 0)) ∧
    createSession sessionName child
        = (["attach", sessionName], .exitWith (child.getD 0)) := by
  have h : jsOrZero child = child.getD 0 := by
    cases child with
    | none => rfl
    | some c =>
      by_cases hc : c = 0
      · simp [jsOrZero, hc]
      · simp [jsOrZero, hc]
  constructor <;> simp [attachToSession, createSession, h]

/-- Claim C10 (confirmed): the non-interactive create command first
consults the live listing; when a session of exactly the requested
name exists it reports the error exit with status 1 without spawning
any subprocess, and only when no session of that name exists does it
spawn the create-or-attach subcommand; by contrast the interactive
createSession takes no listing at all and always spawns the attach
subcommand for its name, performing no existence check. -/
theorem c10_createDirect (sessions : List ZmxSession) (sessionName : String) :
    ((∃ s ∈ sessions, s.name = sessionName) →
      createSessionDirect sessions sessionName = .errorExit 1) ∧
    ((∀ s ∈ sessions, s.name ≠ sessionName) →
      createSessionDirect sessions sessionName = .spawned ["attach", sessionName]) ∧
    (∀ child, (createSession sessionName child).1 = ["attach", sessionName]) := by
  refine ⟨?_, ?_, fun child => rfl⟩
  · rintro ⟨s, hs, he⟩
    have hany : sessions.any (fun s => s.name == sessionName) = true :=
      List.any_eq_true.mpr ⟨s, hs, by simp [he]⟩
    simp [createSessionDirect, hany]
  · intro h
    cases hany : sessions.any (fun s => s.name == sessionName) with
    | true =>
      rcases List.any_eq_true.mp hany with ⟨s, hs, he⟩
      exact absurd (by simpa using he) (h s hs)
    | false => simp [createSessionDirect, hany]

/-- Claim C10 witness: the theorem applied to a concrete listing
holding the session dev, where creating dev exits with status 1 and
creating a fresh name spawns the attach subcommand. -/
theorem c10_witness :
    ((∃ s ∈ [ZmxSession.mk "dev"], s.name = "dev") ∧
      createSessionDirect [ZmxSession.mk "dev"] "dev" = .errorExit 1) ∧
    ((∀ s ∈ [ZmxSession.mk "dev"], s.name ≠ "new") ∧
      createSessionDirect [ZmxSession.mk "dev"] "new" = .spawned ["attach", "new"]) := by
  have hex : ∃ s ∈ [ZmxSession.mk "dev"], s.name = "dev" := ⟨ZmxSession.mk "dev", by simp, rfl⟩
  have hall : ∀ s ∈ [ZmxSession.mk "dev"], s.name ≠ "new" := by
    intro s hs
    rcases List.mem_cons.mp hs with rfl | hs'
    · decide
    · exact absurd hs' (List.not_mem_nil s)
  exact ⟨⟨hex, (c10_createDirect [ZmxSession.mk "dev"] "dev").1 hex⟩,
    ⟨hall, (c10_createDirect [ZmxSession.mk "dev"] "new").2.1 hall⟩⟩
